import Mathlib

/-!
Verification of the prompt-versioning and template-rendering core of the
prompt-manager repository (src/prompt_manager/core/).

The Python code is shallowly embedded: SQLAlchemy rows become structures, the
database session becomes explicit state passing (a prompt's version rows are a
list carried on the prompt; a table is a list of prompts), and pydantic
payloads with optional / unset fields become structures of Option fields
(some v = the field was present in the request, so it appears in
model_dump(exclude_unset=True); none = absent).  Timestamps are abstract Nat
instants supplied by the caller.  Regex scanning in templates.py is compiled
by hand into equivalent character-list scanners; the Jinja2 rendering engine
itself is an external dependency and is modelled from the specification where
needed (see TemplateEngine.lexPieces / TemplateEngine.render below).
-/

/-- Character class of the regex escape backslash-s, restricted to the ASCII
whitespace characters (the repository only manipulates ASCII template
syntax). -/
def isSpaceChar (c : Char) : Bool :=
  c = ' ' || c = '\t' || c = '\n' || c = '\r' || c = '\x0b' || c = '\x0c'

/-- Character class of the regex escape backslash-w (ASCII): letters, digits
and underscore. -/
def isWordChar (c : Char) : Bool :=
  ('a' ≤ c && c ≤ 'z') || ('A' ≤ c && c ≤ 'Z') || ('0' ≤ c && c ≤ '9') || c = '_'

/-- Code-point lexicographic comparison of character lists: the order
Python's sorted() uses on strings.  (Lean's own String order is the same
relation - see strLe_le below - but its decision procedure does not reduce
in the kernel, so the model carries this executable comparison.) -/
def strLeB : List Char → List Char → Bool
  | [], _ => true
  | _ :: _, [] => false
  | a :: as, b :: bs => if a < b then true else if a = b then strLeB as bs else false

/-- Code-point lexicographic comparison of strings. -/
def strLe (s t : String) : Bool :=
  strLeB s.data t.data

/-- Descriptor stored in template_vars for one variable, as built by
PromptService: the dictionary with keys type and required. -/
structure VarDescriptor where
  varType : String
  required : Bool
deriving Repr, DecidableEq

/-- One row of the prompt_versions table (models.PromptVersion): version
number, content snapshot and optional change note.  The id, prompt_id and
changed_at columns are identification / timestamp plumbing that no claim
touches. -/
structure PromptVersionRow where
  version : Nat
  content : String
  change_note : Option String
deriving Repr, DecidableEq

/-- One row of the prompts table (models.Prompt).  Its version rows are
carried inline as the list versions (the SQLAlchemy relationship); the list
order is insertion order.  version defaults to 1 and usage_count to 0, the
column defaults. -/
structure Prompt where
  slug : String
  title : String
  content : String
  description : Option String := none
  category : Option String := none
  tags : List String := []
  source_url : Option String := none
  is_template : Bool := false
  template_vars : List (String × VarDescriptor) := []
  usage_count : Nat := 0
  last_used_at : Option Nat := none
  success_notes : Option String := none
  failure_notes : Option String := none
  related_slugs : List String := []
  version : Nat := 1
  versions : List PromptVersionRow := []
deriving Repr, DecidableEq

/-- schemas.PromptCreate.  Fields keep their pydantic defaults; slug is the
optional explicit slug. -/
structure PromptCreate where
  slug : Option String := none
  title : String
  content : String
  description : Option String := none
  category : Option String := none
  tags : List String := []
  source_url : Option String := none
  is_template : Bool := false
  template_vars : List (String × VarDescriptor) := []
  success_notes : Option String := none
  failure_notes : Option String := none
  related_slugs : List String := []
deriving Repr, DecidableEq

/-- schemas.PromptUpdate.  some v means the field was supplied in the request
body (and hence survives model_dump(exclude_unset=True)); none means it was
not supplied. -/
structure PromptUpdate where
  title : Option String := none
  content : Option String := none
  description : Option String := none
  category : Option String := none
  tags : Option (List String) := none
  source_url : Option String := none
  is_template : Option Bool := none
  template_vars : Option (List (String × VarDescriptor)) := none
  success_notes : Option String := none
  failure_notes : Option String := none
  related_slugs : Option (List String) := none
  change_note : Option String := none
deriving Repr, DecidableEq

namespace PromptRepository

/-- PromptRepository.get_by_slug over the prompts table (a list of rows). -/
def get_by_slug (store : List Prompt) (slug : String) : Option Prompt :=
  store.find? (fun p => p.slug == slug)

/-- Writing the mutated row back: the session holds one row per slug, so the
row with this slug is replaced. -/
def setPrompt (store : List Prompt) (p : Prompt) : List Prompt :=
  store.map (fun q => if q.slug == p.slug then p else q)

/-- The body of PromptRepository.update once the row has been fetched
(repository.py lines 81-99): build update_data from the supplied fields
(excluding change_note), compare the supplied content with the stored one,
assign every supplied field, and append a version row exactly when the
comparison found a difference, incrementing version first. -/
def applyUpdate (p : Prompt) (d : PromptUpdate) : Prompt :=
  let p2 : Prompt :=
    { p with
      title := d.title.getD p.title
      content := d.content.getD p.content
      description := d.description.or p.description
      category := d.category.or p.category
      tags := d.tags.getD p.tags
      source_url := d.source_url.or p.source_url
      is_template := d.is_template.getD p.is_template
      template_vars := d.template_vars.getD p.template_vars
      success_notes := d.success_notes.or p.success_notes
      failure_notes := d.failure_notes.or p.failure_notes
      related_slugs := d.related_slugs.getD p.related_slugs }
  match d.content with
  | some c =>
      if c ≠ p.content then
        { p2 with
          version := p.version + 1
          versions := p.versions ++
            [{ version := p.version + 1, content := c, change_note := d.change_note }] }
      else p2
  | none => p2

/-- PromptRepository.update at table level: fetch by slug, apply, write
back. -/
def update (store : List Prompt) (slug : String) (d : PromptUpdate) :
    List Prompt × Option Prompt :=
  match get_by_slug store slug with
  | none => (store, none)
  | some p =>
      let p2 := applyUpdate p d
      (setPrompt store p2, some p2)

/-- PromptRepository.increment_usage on the fetched row (repository.py lines
170-171); now is the current timestamp. -/
def bumpUsage (p : Prompt) (now : Nat) : Prompt :=
  { p with usage_count := p.usage_count + 1, last_used_at := some now }

/-- PromptRepository.increment_usage at table level. -/
def increment_usage (store : List Prompt) (slug : String) (now : Nat) :
    List Prompt × Option Prompt :=
  match get_by_slug store slug with
  | none => (store, none)
  | some p =>
      let p2 := bumpUsage p now
      (setPrompt store p2, some p2)

/-- PromptRepository.get_version: the row of this prompt with the requested
version number (version numbers are unique per prompt, so find? is the
scalar_one_or_none query). -/
def get_version (p : Prompt) (n : Nat) : Option PromptVersionRow :=
  p.versions.find? (fun r => r.version == n)

end PromptRepository

/-- A freshly created row as persisted by PromptRepository.create after slug
resolution (repository.py lines 34-59): the prompt with column defaults
(version 1, usage 0) plus the unconditional initial version row. -/
def PromptRepository.newPrompt (slug : String) (data : PromptCreate) : Prompt :=
  { slug := slug
    title := data.title
    content := data.content
    description := data.description
    category := data.category
    tags := data.tags
    source_url := data.source_url
    is_template := data.is_template
    template_vars := data.template_vars
    success_notes := data.success_notes
    failure_notes := data.failure_notes
    related_slugs := data.related_slugs
    version := 1
    usage_count := 0
    last_used_at := none
    versions := [{ version := 1, content := data.content, change_note := some "Initial version" }] }

/-- The version-ledger invariant: the version numbers of the prompt's rows
are exactly 1, 2, ..., version in insertion order.  This is the strongest
form of alignment between the version column and the history (no gap, no
duplicate, the column is the newest row's number). -/
def versionsAligned (p : Prompt) : Prop :=
  p.versions.map (fun r => r.version) = List.range' 1 p.version

instance (p : Prompt) : Decidable (versionsAligned p) := by
  unfold versionsAligned; infer_instance

/-- The highest version number among the prompt's rows (0 when there are
none). -/
def highestVersion (p : Prompt) : Nat :=
  (p.versions.map (fun r => r.version)).foldr max 0

/-- PromptService.restore_version on a fetched prompt (service.py lines
104-116): look the target version row up, then perform a plain repository
update carrying that row's content and a synthesized change note.  There is
no special path: the outcome is whatever PromptRepository.update does. -/
def PromptService.restore_version (p : Prompt) (n : Nat) : Option Prompt :=
  match PromptRepository.get_version p n with
  | none => none
  | some r =>
      some (PromptRepository.applyUpdate p
        { content := some r.content,
          change_note := some ("Restored from version " ++ toString n) })

/-- Sample row used by witnesses: a freshly created single-version prompt. -/
def samplePromptA : Prompt :=
  { slug := "greet", title := "Greeting", content := "A", version := 1,
    versions := [{ version := 1, content := "A", change_note := some "Initial version" }] }

/-- Sample row used by witnesses: a prompt that went through two
content-changing updates, currently at version 3 with content "C". -/
def samplePromptB : Prompt :=
  { slug := "intro", title := "Intro", content := "C", version := 3,
    versions :=
      [{ version := 1, content := "A", change_note := some "Initial version" },
       { version := 2, content := "B", change_note := none },
       { version := 3, content := "C", change_note := none }] }

/-- Little-endian decimal digits of n, by the usual division loop; the first
argument is fuel, and any fuel ≥ n makes the result exact. -/
def decDigits : Nat → Nat → List Nat
  | 0, _ => []
  | fuel + 1, n => if n = 0 then [] else n % 10 :: decDigits fuel (n / 10)

/-- Decimal value of a little-endian digit list (left inverse of
decDigits). -/
def decValue : List Nat → Nat
  | [] => 0
  | d :: ds => d + 10 * decValue ds

/-- Decimal rendering of a natural number: the Lean counterpart of Python's
str(counter) as used inside the f-string of PromptRepository.create. -/
def decimalStr (n : Nat) : String :=
  if n = 0 then "0" else String.mk (((decDigits n n).map Nat.digitChar).reverse)

/-- The candidate slug tried at counter value k, the f-string
base_slug-counter of repository.py line 30. -/
def slugCandidate (base : String) (k : Nat) : String :=
  base ++ "-" ++ decimalStr k

/-- The collision loop of PromptRepository.create (repository.py lines
24-32): starting at counter 1, try base-1, base-2, ... until a candidate is
not among the existing slugs.  The Python while loop is unbounded;
existing.length + 1 iterations provably suffice (see
resolve_slug_not_mem), so running it on that much fuel is exact. -/
def resolveSlugAux (existing : List String) (base : String) : Nat → Nat → String
  | 0, k => slugCandidate base k
  | fuel + 1, k =>
      if slugCandidate base k ∈ existing then resolveSlugAux existing base fuel (k + 1)
      else slugCandidate base k

/-- Slug uniqueness resolution of PromptRepository.create: keep the candidate
when it is unused, otherwise run the numeric-suffix loop from counter 1. -/
def resolve_slug (existing : List String) (candidate : String) : String :=
  if candidate ∈ existing then resolveSlugAux existing candidate (existing.length + 1) 1
  else candidate

/-- PromptRepository.create in full: derive the candidate (explicit slug, or
the slugified title - slugifyTitle stands for the external python-slugify
call), resolve it against the stored slugs, persist the new row together
with its unconditional initial version row. -/
def PromptRepository.create (store : List Prompt) (slugifyTitle : String → String)
    (data : PromptCreate) : List Prompt × Prompt :=
  let candidate := (data.slug).getD (slugifyTitle data.title)
  let slug := resolve_slug (store.map (fun p => p.slug)) candidate
  let p := PromptRepository.newPrompt slug data
  (store ++ [p], p)

/-- The error raised by TemplateEngine.render (templates.py class
TemplateRenderError), split into the two documented failure kinds: syntax
failure and undefined-variable failure (the message of the latter identifies
the missing name, which the constructor carries). -/
inductive TemplateRenderError where
  | syntaxError (msg : String)
  | missingVariable (name : String)
deriving Repr, DecidableEq

/-- A lexed element of the modelled template fragment: a literal character
or a variable interpolation. -/
inductive Piece where
  | text (c : Char)
  | var (name : String)
deriving Repr, DecidableEq

namespace TemplateEngine

/-- Scan for an adjacent pair c1 c2 with no newline strictly before it: the
search for the lazy tail .*?c1c2 of one branch of the detection regex of
templates.py line 22 (the regex dot does not cross newlines). -/
def findClose (c1 c2 : Char) : List Char → Bool
  | c :: d :: rest =>
      if c = c1 ∧ d = c2 then true
      else if c = '\n' then false
      else findClose c1 c2 (d :: rest)
  | _ => false

/-- Does one branch of the detection regex match at the head of the input?
Both branches need a two-character opener, then a lazily-closed marker. -/
def headMarker : List Char → Bool
  | x :: y :: rest =>
      if x = '\x7b' ∧ y = '\x7b' then findClose '\x7d' '\x7d' rest
      else if x = '\x7b' ∧ y = '%' then findClose '%' '\x7d' rest
      else false
  | _ => false

/-- re.search over the whole string: try every start position left to
right. -/
def searchMarker : List Char → Bool
  | [] => false
  | x :: rest => headMarker (x :: rest) || searchMarker rest

/-- TemplateEngine.is_template (templates.py lines 19-22). -/
def is_template (content : String) : Bool :=
  searchMarker content.data

/-- The continuation backslash-s* followed by the closing marker, inside the
variable-interpolation regex of templates.py line 29. -/
def closeVar (cs : List Char) : Option (List Char) :=
  match cs.dropWhile (fun c => isSpaceChar c) with
  | '\x7d' :: '\x7d' :: rest => some rest
  | _ => none

/-- The lazy filter tail .*? of the same regex: try the continuation at the
shortest prefix first, consuming only non-newline characters. -/
def lazyCloseVar : List Char → Option (List Char)
  | [] => none
  | c :: cs =>
      match closeVar (c :: cs) with
      | some rest => some rest
      | none => if c = '\n' then none else lazyCloseVar cs

/-- Hand-compiled match of the interpolation regex of templates.py line 29
at the head of the input (opener, optional whitespace, captured identifier,
optional filter pipeline, closing marker); returns the capture and the rest
of the input after the match.  Adjacent pieces of the regex act on disjoint
character classes, so the greedy runs never backtrack and the hand
compilation is exact. -/
def matchVar : List Char → Option (String × List Char)
  | '\x7b' :: '\x7b' :: rest =>
      let r1 := rest.dropWhile (fun c => isSpaceChar c)
      let name := r1.takeWhile (fun c => isWordChar c)
      if name.isEmpty then none
      else
        match (r1.drop name.length).dropWhile (fun c => isSpaceChar c) with
        | '|' :: restP => (lazyCloseVar restP).map (fun rest2 => (name.asString, rest2))
        | '\x7d' :: '\x7d' :: rest2 => some (name.asString, rest2)
        | _ => none
  | _ => none

/-- The regex piece backslash-s+ : at least one whitespace character, taken
greedily. -/
def dropSpaces1 : List Char → Option (List Char)
  | c :: rest => if isSpaceChar c then some (rest.dropWhile (fun x => isSpaceChar x)) else none
  | [] => none

/-- The regex piece (backslash-w+): a nonempty greedy identifier run,
returned together with the rest of the input. -/
def takeWord1 (cs : List Char) : Option (String × List Char) :=
  let w := cs.takeWhile (fun c => isWordChar c)
  if w.isEmpty then none else some (w.asString, cs.drop w.length)

/-- Hand-compiled match of the for-loop regex of templates.py line 33 at the
head of the input; captures the iterable identifier, not the loop
variable. -/
def matchFor : List Char → Option (String × List Char)
  | '\x7b' :: '%' :: rest =>
      match rest.dropWhile (fun c => isSpaceChar c) with
      | 'f' :: 'o' :: 'r' :: r2 =>
          (dropSpaces1 r2).bind fun r3 =>
          (takeWord1 r3).bind fun w4 =>
          (dropSpaces1 w4.2).bind fun r5 =>
          match r5 with
          | 'i' :: 'n' :: r6 =>
              (dropSpaces1 r6).bind fun r7 =>
              (takeWord1 r7).bind fun w8 =>
              match w8.2.dropWhile (fun c => isSpaceChar c) with
              | '%' :: '\x7d' :: r9 => some (w8.1, r9)
              | _ => none
          | _ => none
      | _ => none
  | _ => none

/-- Hand-compiled match of the if-block regex of templates.py line 37 at the
head of the input; captures the first identifier after if, which must be
followed by a whitespace character or a closing brace (both consumed by the
regex group). -/
def matchIf : List Char → Option (String × List Char)
  | '\x7b' :: '%' :: rest =>
      match rest.dropWhile (fun c => isSpaceChar c) with
      | 'i' :: 'f' :: r2 =>
          (dropSpaces1 r2).bind fun r3 =>
          (takeWord1 r3).bind fun w4 =>
          match w4.2 with
          | c :: r5 => if isSpaceChar c ∨ c = '\x7d' then some (w4.1, r5) else none
          | [] => none
      | _ => none
  | _ => none

/-- re.findall: scan left to right, at each position try the matcher; on a
match record the capture and continue after the matched text (matches are
non-overlapping and never empty, every match consumes at least four
characters).  The fuel argument, instantiated with the input length by
findAll, bounds the number of scan steps; each step discards at least one
character, so that much fuel is always exact. -/
def findAllAux (m : List Char → Option (String × List Char)) :
    Nat → List Char → List String
  | 0, _ => []
  | _ + 1, [] => []
  | fuel + 1, c :: cs =>
      match m (c :: cs) with
      | some (w, rest) => w :: findAllAux m fuel rest
      | none => findAllAux m fuel cs

/-- All captures of one pattern over the whole content, in match order. -/
def findAll (m : List Char → Option (String × List Char)) (content : String) :
    List String :=
  findAllAux m content.data.length content.data

/-- The fixed exclusion set of templates.py line 41. -/
def builtins : List String :=
  ["loop", "true", "false", "none", "True", "False", "None"]

/-- TemplateEngine.extract_variables (templates.py lines 24-42): union the
captures of the three patterns into a set, remove the builtins, sort
alphabetically.  The Python set-then-sorted pipeline is modelled as
dedup-filter-sort, which produces the same (unique) duplicate-free sorted
list. -/
def extract_variables (content : String) : List String :=
  let vars := findAll matchVar content ++ findAll matchFor content ++ findAll matchIf content
  List.insertionSort (fun a b => strLe a b = true)
    (vars.dedup.filter (fun v => decide (v ∉ builtins)))

/-- Names the modelled renderer refuses to treat as lookup names: the
literal boolean and null tokens of the template language. -/
def literalTokens : List String := ["true", "false", "none", "True", "False", "None"]

/-- Modelled from the spec: one plain interpolation body after its opening
marker - optional whitespace, an identifier that is neither numeric-initial
nor a literal token, optional whitespace and the closing marker.  Anything
else after an opening marker is outside the modelled fragment and is
reported as a syntax failure by the lexer. -/
def parseInterpRender (cs : List Char) : Option (String × List Char) :=
  let r1 := cs.dropWhile (fun c => isSpaceChar c)
  let name := r1.takeWhile (fun c => isWordChar c)
  match name with
  | [] => none
  | c0 :: _ =>
      if ('0' ≤ c0 ∧ c0 ≤ '9') ∨ name.asString ∈ literalTokens then none
      else
        match (r1.drop name.length).dropWhile (fun c => isSpaceChar c) with
        | '\x7d' :: '\x7d' :: rest => some (name.asString, rest)
        | _ => none

/-- Modelled from the spec: the lexer of the template renderer (the Jinja2
engine called by templates.py line 47 is an external library, absent from
src/).  The modelled fragment is literal text plus plain-identifier
interpolations; per the spec's failure taxonomy, an opening marker without a
well-formed plain interpolation is malformed markup (unbalanced markers),
and control blocks are outside the fragment, so both are syntax
failures.  dropComment scans past a comment body to its closing tag. -/
def dropComment : List Char → Option (List Char)
  | '#' :: '\x7d' :: rest => some rest
  | _ :: rest => dropComment rest
  | [] => none

/-- Modelled from the spec (and the engine's documented default comment
syntax): the lexer body.  A comment opener skips to its closing tag and
emits nothing; an unclosed comment is malformed markup. -/
def lexPiecesF : Nat → List Char → Except TemplateRenderError (List Piece)
  | _, [] => Except.ok []
  | 0, _ :: _ => Except.error (TemplateRenderError.syntaxError "fuel exhausted")
  | fuel + 1, '\x7b' :: '\x7b' :: rest =>
      match parseInterpRender rest with
      | some (n, rest2) => (lexPiecesF fuel rest2).map (fun ps => Piece.var n :: ps)
      | none => Except.error (TemplateRenderError.syntaxError "malformed interpolation")
  | _ + 1, '\x7b' :: '%' :: _ =>
      Except.error (TemplateRenderError.syntaxError "control block outside modelled fragment")
  | fuel + 1, '\x7b' :: '#' :: rest =>
      match dropComment rest with
      | some rest2 => lexPiecesF fuel rest2
      | none => Except.error (TemplateRenderError.syntaxError "unclosed comment")
  | fuel + 1, c :: rest => (lexPiecesF fuel rest).map (fun ps => Piece.text c :: ps)

/-- The lexer at its exact fuel: every step consumes at least one character
(the interpolation step consumes the two-character opener and more), so
running on the input length is the same as unbounded recursion and the fuel
branch is unreachable. -/
def lexPieces (cs : List Char) : Except TemplateRenderError (List Piece) :=
  lexPiecesF cs.length cs

/-- The mapping lookup used by the modelled renderer. -/
def lookupVar (vars : List (String × String)) (n : String) : Option String :=
  (vars.find? (fun kv => kv.1 == n)).map (fun kv => kv.2)

/-- Modelled from the spec: strict-undefined evaluation of the lexed pieces
left to right - a literal character is emitted, an interpolation is replaced
by the mapped value, and the first interpolation whose name is absent from
the mapping fails identifying that name. -/
def renderPieces (vars : List (String × String)) : List Piece → Except TemplateRenderError String
  | [] => Except.ok ""
  | Piece.text c :: ps =>
      (renderPieces vars ps).map (fun s => String.mk (c :: s.data))
  | Piece.var n :: ps =>
      match lookupVar vars n with
      | some v => (renderPieces vars ps).map (fun s => v ++ s)
      | none => Except.error (TemplateRenderError.missingVariable n)

/-- TemplateEngine.render (templates.py lines 44-52) over the modelled
engine: lex, then substitute under strict-undefined; both failure kinds
surface as TemplateRenderError. -/
def render (content : String) (vars : List (String × String)) :
    Except TemplateRenderError String :=
  (lexPieces content.data).bind (renderPieces vars)

/-- The names a content string references, per the modelled fragment: the
interpolation names in lexing order. -/
def referencedNames (ps : List Piece) : List String :=
  ps.filterMap (fun p => match p with | Piece.var n => some n | Piece.text _ => none)

/-- Does the content contain a marker opener at all (variable, block or
comment)?  Absence of an opener is the hypothesis under which rendering is
the identity: a lone opener such as an unmatched variable-start is a syntax
failure, and a comment is stripped, so neither is literal text. -/
def hasOpener : List Char → Bool
  | x :: y :: rest =>
      decide (x = '\x7b' ∧ (y = '\x7b' ∨ y = '%' ∨ y = '#')) || hasOpener (y :: rest)
  | _ => false

end TemplateEngine

/-- The mutation phase of PromptService.create_prompt (service.py lines
22-29): when the incoming flag is falsy, overwrite it with the detection
result; then, when the (possibly updated) flag is set and the supplied
descriptor mapping is falsy (empty), fill it from extraction, every name
with descriptor type string, required true. -/
def PromptService.prepareCreate (data : PromptCreate) : PromptCreate :=
  let data1 :=
    if !data.is_template then
      { data with is_template := TemplateEngine.is_template data.content }
    else data
  if data1.is_template && data1.template_vars.isEmpty then
    { data1 with
      template_vars := (TemplateEngine.extract_variables data1.content).map
        (fun v => (v, { varType := "string", required := true })) }
  else data1

/-- PromptService.create_prompt: mutate the payload, then let the repository
persist it. -/
def PromptService.create_prompt (store : List Prompt) (slugifyTitle : String → String)
    (data : PromptCreate) : List Prompt × Prompt :=
  PromptRepository.create store slugifyTitle (PromptService.prepareCreate data)

/-- The mutation phase of PromptService.update_prompt (service.py lines
41-48): only runs when the payload carries content; fills is_template when
it is null (explicit values, including an explicit false, are preserved),
then fills template_vars when the resulting flag is true and no descriptors
were supplied. -/
def PromptService.prepareUpdate (d : PromptUpdate) : PromptUpdate :=
  match d.content with
  | none => d
  | some c =>
      let d1 :=
        match d.is_template with
        | none => { d with is_template := some (TemplateEngine.is_template c) }
        | some _ => d
      match d1.is_template, d1.template_vars with
      | some true, none =>
          { d1 with
            template_vars := some ((TemplateEngine.extract_variables c).map
              (fun v => (v, { varType := "string", required := true }))) }
      | _, _ => d1

/-- PromptService.update_prompt: mutate the payload, then let the repository
apply it. -/
def PromptService.update_prompt (store : List Prompt) (slug : String) (d : PromptUpdate) :
    List Prompt × Option Prompt :=
  PromptRepository.update store slug (PromptService.prepareUpdate d)

/-- PromptService.render_prompt (service.py lines 85-94): fetch the prompt
with the usage increment (the repository commits the bump), then render the
fetched content; a render failure propagates only after the commit, so the
returned table keeps the bump in every outcome. -/
def PromptService.render_prompt (store : List Prompt) (slug : String)
    (vars : List (String × String)) (now : Nat) :
    List Prompt × Option (Except TemplateRenderError String) :=
  match PromptRepository.increment_usage store slug now with
  | (store2, none) => (store2, none)
  | (store2, some p) => (store2, some (TemplateEngine.render p.content vars))

/-- Sample row used by witnesses: a stored template prompt with one
variable. -/
def samplePromptT : Prompt :=
  { slug := "tpl", title := "Tpl", content := "\x7b\x7bx\x7d\x7d", is_template := true,
    template_vars := [("x", { varType := "string", required := true })], version := 1,
    versions := [{ version := 1, content := "\x7b\x7bx\x7d\x7d",
                   change_note := some "Initial version" }] }

/-- C1: PromptRepository.update increments version and appends exactly one
version row (new version number, new content, the request's change_note)
precisely when the payload carries a content key whose value differs from the
stored content; otherwise version and the version history are untouched while
the other supplied fields are still persisted. -/
theorem applyUpdate_version_iff (p : Prompt) (d : PromptUpdate) :
    (∀ c, d.content = some c → c ≠ p.content →
        (PromptRepository.applyUpdate p d).version = p.version + 1 ∧
        (PromptRepository.applyUpdate p d).versions =
          p.versions ++ [{ version := p.version + 1, content := c, change_note := d.change_note }] ∧
        (PromptRepository.applyUpdate p d).content = c) ∧
    ((d.content = none ∨ d.content = some p.content) →
        (PromptRepository.applyUpdate p d).version = p.version ∧
        (PromptRepository.applyUpdate p d).versions = p.versions) ∧
    ((PromptRepository.applyUpdate p d).version = p.version + 1 ∧
        (PromptRepository.applyUpdate p d).versions.length = p.versions.length + 1 ↔
      ∃ c, d.content = some c ∧ c ≠ p.content) ∧
    ((PromptRepository.applyUpdate p d).title = d.title.getD p.title ∧
      (PromptRepository.applyUpdate p d).tags = d.tags.getD p.tags ∧
      (PromptRepository.applyUpdate p d).description = d.description.or p.description) := by
  refine ⟨?_, ?_, ?_, ?_⟩
  · intro c hc hne
    simp [PromptRepository.applyUpdate, hc, hne]
  · rintro (hc | hc) <;> simp [PromptRepository.applyUpdate, hc]
  · rcases hc : d.content with _ | c
    · simp [PromptRepository.applyUpdate, hc]
    · by_cases hne : c = p.content
      · subst hne
        simp [PromptRepository.applyUpdate, hc]
      · simp [PromptRepository.applyUpdate, hc, hne]
  · rcases hc : d.content with _ | c
    · simp [PromptRepository.applyUpdate, hc]
    · by_cases hne : c = p.content <;> simp [PromptRepository.applyUpdate, hc, hne]

/-- Witness for applyUpdate_version_iff at a concrete prompt and payload: a
title-plus-content update where the content differs. -/
theorem applyUpdate_version_iff_witness :
    (PromptRepository.applyUpdate { slug := "s", title := "t", content := "A", version := 1 }
        { title := some "t2", content := some "B", change_note := some "n" }).version = 2 ∧
    (PromptRepository.applyUpdate { slug := "s", title := "t", content := "A", version := 1 }
        { title := some "t2", content := some "B", change_note := some "n" }).title = "t2" := by
  have h := applyUpdate_version_iff
    { slug := "s", title := "t", content := "A", version := 1 }
    { title := some "t2", content := some "B", change_note := some "n" }
  refine ⟨(h.1 "B" rfl (by decide)).1, ?_⟩
  have := h.2.2.2.1
  simpa using this

/-- Maximum of the block 1, ..., n of version numbers. -/
theorem foldr_max_range1 (n : Nat) : (List.range' 1 n).foldr max 0 = n := by
  suffices h : ∀ n s, 1 ≤ s → (List.range' s n).foldr max 0 = if n = 0 then 0 else s + n - 1 by
    rcases Nat.eq_zero_or_pos n with h0 | h0
    · subst h0; simp [List.range']
    · have := h n 1 (le_refl 1)
      rw [this, if_neg (by omega : ¬n = 0)]
      omega
  intro n
  induction n with
  | zero => intro s _; simp [List.range']
  | succ m ih =>
      intro s hs
      rw [List.range'_succ]
      simp only [List.foldr_cons]
      rw [ih (s + 1) (by omega)]
      rcases Nat.eq_zero_or_pos m with h0 | h0
      · subst h0; simp
      · simp only [if_neg (by omega : ¬m = 0), if_neg (by omega : ¬m + 1 = 0)]
        omega

/-- C2: the ledger invariant (version column = highest row version, rows are
exactly 1..version) holds after creation, which unconditionally writes
version 1 together with the "Initial version" row, and is preserved by every
update; one update moves the version column by 0 or 1, never down and never
skipping. -/
theorem versionLedger_invariant :
    (∀ slug data, versionsAligned (PromptRepository.newPrompt slug data) ∧
        (PromptRepository.newPrompt slug data).version = 1 ∧
        (PromptRepository.newPrompt slug data).versions =
          [{ version := 1, content := data.content, change_note := some "Initial version" }]) ∧
    (∀ p d, versionsAligned p → versionsAligned (PromptRepository.applyUpdate p d)) ∧
    (∀ p d, p.version ≤ (PromptRepository.applyUpdate p d).version ∧
        (PromptRepository.applyUpdate p d).version ≤ p.version + 1) ∧
    (∀ p, versionsAligned p → highestVersion p = p.version) := by
  refine ⟨?_, ?_, ?_, ?_⟩
  · intro slug data
    refine ⟨?_, rfl, rfl⟩
    simp [versionsAligned, PromptRepository.newPrompt, List.range']
  · intro p d hp
    unfold versionsAligned at hp ⊢
    rcases hc : d.content with _ | c
    · simpa [PromptRepository.applyUpdate, hc] using hp
    · by_cases hne : c = p.content
      · simpa [PromptRepository.applyUpdate, hc, hne] using hp
      · simp [PromptRepository.applyUpdate, hc, hne, hp, List.range'_concat]
        omega
  · intro p d
    rcases hc : d.content with _ | c
    · simp [PromptRepository.applyUpdate, hc]
    · by_cases hne : c = p.content <;> simp [PromptRepository.applyUpdate, hc, hne]
  · intro p hp
    unfold versionsAligned at hp
    unfold highestVersion
    rw [hp, foldr_max_range1]

/-- Witness for versionLedger_invariant: the invariant holds for the sample
prompt and is preserved by a concrete content-changing update. -/
theorem versionLedger_invariant_witness :
    versionsAligned samplePromptA ∧
    versionsAligned (PromptRepository.applyUpdate samplePromptA { content := some "B" }) ∧
    highestVersion samplePromptA = samplePromptA.version :=
  ⟨by decide,
   versionLedger_invariant.2.1 samplePromptA { content := some "B" } (by decide),
   versionLedger_invariant.2.2.2 samplePromptA (by decide)⟩

/-- C3 counterexample: restoring a prompt to its current version (whose
stored content equals the prompt's current content) is a plain no-change
update, so no new version is produced and no "Restored from version 1" note
is recorded; the claim promised version V+1 for every existing target
version. -/
theorem restore_current_version_noop :
    PromptService.restore_version samplePromptA 1 = some samplePromptA := by decide

/-- C3 (amended): restore-to-version is a plain content update, so when the
target row's content differs from the current content it yields version V+1
carrying the restored content and the synthesized change note, with all
pre-existing rows untouched; when the target content equals the current
content the update is a no-op on version and history. -/
theorem restore_version_spec (p : Prompt) (n : Nat) (r : PromptVersionRow)
    (hr : PromptRepository.get_version p n = some r) :
    (r.content ≠ p.content →
       ∃ q, PromptService.restore_version p n = some q ∧
         q.version = p.version + 1 ∧
         q.content = r.content ∧
         q.versions = p.versions ++
           [{ version := p.version + 1, content := r.content,
              change_note := some ("Restored from version " ++ toString n) }]) ∧
    (r.content = p.content →
       ∃ q, PromptService.restore_version p n = some q ∧
         q.version = p.version ∧ q.versions = p.versions) := by
  constructor
  · intro hne
    refine ⟨_, by rw [PromptService.restore_version, hr], ?_, ?_, ?_⟩ <;>
      simp [PromptRepository.applyUpdate, hne]
  · intro heq
    refine ⟨_, by rw [PromptService.restore_version, hr], ?_, ?_⟩ <;>
      simp [PromptRepository.applyUpdate, heq]

/-- Witness for restore_version_spec: restoring the version-3 sample prompt
to version 2 (content "B") gives version 4 with content "B" and the
synthesized note, and leaves the three old rows in place. -/
theorem restore_version_spec_witness :
    ∃ q, PromptService.restore_version samplePromptB 2 = some q ∧
      q.version = 3 + 1 ∧
      q.content = "B" ∧
      q.versions = samplePromptB.versions ++
        [{ version := 3 + 1, content := "B",
           change_note := some ("Restored from version " ++ toString 2) }] :=
  (restore_version_spec samplePromptB 2
    { version := 2, content := "B", change_note := none } (by decide)).1 (by decide)

/-- decValue recovers the number from its digit list whenever the fuel was
sufficient. -/
theorem decValue_decDigits : ∀ fuel n, n ≤ fuel → decValue (decDigits fuel n) = n := by
  intro fuel
  induction fuel with
  | zero => intro n hn; interval_cases n; simp [decDigits, decValue]
  | succ m ih =>
      intro n hn
      by_cases h0 : n = 0
      · subst h0; simp [decDigits, decValue]
      · have hdiv : n / 10 < n := Nat.div_lt_self (by omega) (by omega)
        rw [decDigits, if_neg h0, decValue, ih (n / 10) (by omega)]
        omega

/-- Every entry produced by decDigits is a decimal digit. -/
theorem decDigits_lt_ten : ∀ fuel n d, d ∈ decDigits fuel n → d < 10 := by
  intro fuel
  induction fuel with
  | zero => intro n d hd; simp [decDigits] at hd
  | succ m ih =>
      intro n d hd
      by_cases h0 : n = 0
      · subst h0; simp [decDigits] at hd
      · rw [decDigits, if_neg h0] at hd
        rcases List.mem_cons.1 hd with h | h
        · subst h; exact Nat.mod_lt _ (by omega)
        · exact ih _ _ h

/-- Nat.digitChar is injective on decimal digits. -/
theorem digitChar_inj_lt (a b : Nat) (ha : a < 10) (hb : b < 10)
    (h : Nat.digitChar a = Nat.digitChar b) : a = b := by
  interval_cases a <;> interval_cases b <;> revert h <;> decide

/-- Mapping Nat.digitChar over digit lists is injective. -/
theorem map_digitChar_inj : ∀ l1 l2 : List Nat, (∀ d ∈ l1, d < 10) → (∀ d ∈ l2, d < 10) →
    l1.map Nat.digitChar = l2.map Nat.digitChar → l1 = l2 := by
  intro l1
  induction l1 with
  | nil => intro l2 _ _ h; cases l2 <;> simp_all
  | cons a t ih =>
      intro l2 h1 h2 h
      cases l2 with
      | nil => simp_all
      | cons b t2 =>
          simp only [List.map_cons, List.cons.injEq] at h
          have hab := digitChar_inj_lt a b (h1 a (by simp)) (h2 b (by simp)) h.1
          have ht := ih t2 (fun d hd => h1 d (by simp [hd])) (fun d hd => h2 d (by simp [hd])) h.2
          rw [hab, ht]

/-- decimalStr is injective: distinct counters give distinct suffixes. -/
theorem decimalStr_inj (m n : Nat) (h : decimalStr m = decimalStr n) : m = n := by
  have hdata := congrArg String.data h
  unfold decimalStr at hdata
  by_cases hm : m = 0 <;> by_cases hn : n = 0
  · omega
  · exfalso
    rw [if_pos hm, if_neg hn] at hdata
    have : [0] = decDigits n n := by
      apply map_digitChar_inj [0] (decDigits n n) (by simp) (fun d hd => decDigits_lt_ten _ _ _ hd)
      have h2 := congrArg List.reverse hdata
      simp at h2
      rw [show List.map Nat.digitChar [0] = ['0'] by decide]
      exact h2
    have hv := decValue_decDigits n n (le_refl n)
    rw [← this] at hv
    simp [decValue] at hv
    omega
  · exfalso
    rw [if_neg hm, if_pos hn] at hdata
    have : [0] = decDigits m m := by
      apply map_digitChar_inj [0] (decDigits m m) (by simp) (fun d hd => decDigits_lt_ten _ _ _ hd)
      have h2 := congrArg List.reverse hdata
      simp at h2
      rw [show List.map Nat.digitChar [0] = ['0'] by decide]
      exact h2.symm
    have hv := decValue_decDigits m m (le_refl m)
    rw [← this] at hv
    simp [decValue] at hv
    omega
  · rw [if_neg hm, if_neg hn] at hdata
    have hrev := congrArg List.reverse hdata
    simp only [List.reverse_reverse] at hrev
    have hmap : (decDigits m m).map Nat.digitChar = (decDigits n n).map Nat.digitChar := by
      simpa using hrev
    have hdig := map_digitChar_inj _ _ (fun d hd => decDigits_lt_ten _ _ _ hd)
      (fun d hd => decDigits_lt_ten _ _ _ hd) hmap
    have hm2 := decValue_decDigits m m (le_refl m)
    have hn2 := decValue_decDigits n n (le_refl n)
    rw [hdig] at hm2
    omega

/-- slugCandidate is injective in the counter for a fixed base. -/
theorem slugCandidate_inj (base : String) (k1 k2 : Nat)
    (h : slugCandidate base k1 = slugCandidate base k2) : k1 = k2 := by
  unfold slugCandidate at h
  have hdata := congrArg String.data h
  rw [String.data_append, String.data_append, String.data_append, String.data_append,
    List.append_assoc, List.append_assoc] at hdata
  have h2 := List.append_cancel_left hdata
  have h3 := List.append_cancel_left h2
  exact decimalStr_inj k1 k2 (String.ext h3)

/-- Pigeonhole: among any existing.length + 1 consecutive counters there is
one whose candidate slug is unused. -/
theorem exists_free_candidate (existing : List String) (base : String) (k : Nat) :
    ∃ j, j ≤ existing.length ∧ slugCandidate base (k + j) ∉ existing := by
  by_contra hall
  push_neg at hall
  have hinj : Function.Injective fun j : Nat => slugCandidate base (k + j) := by
    intro a b hab
    have := slugCandidate_inj base (k + a) (k + b) hab
    omega
  have hsub : (Finset.range (existing.length + 1)).image
      (fun j => slugCandidate base (k + j)) ⊆ existing.toFinset := by
    intro s hs
    rcases Finset.mem_image.1 hs with ⟨j, hj, rfl⟩
    exact List.mem_toFinset.2 (hall j (by simpa using Nat.lt_succ_iff.1 (Finset.mem_range.1 hj)))
  have hcard := Finset.card_le_card hsub
  rw [Finset.card_image_of_injective _ hinj, Finset.card_range] at hcard
  have := existing.toFinset_card_le
  omega

/-- The collision loop returns the candidate of the first free counter,
provided the fuel reaches it. -/
theorem resolveSlugAux_eq (existing : List String) (base : String) :
    ∀ fuel k j, j < fuel →
      (∀ i, i < j → slugCandidate base (k + i) ∈ existing) →
      slugCandidate base (k + j) ∉ existing →
      resolveSlugAux existing base fuel k = slugCandidate base (k + j) := by
  intro fuel
  induction fuel with
  | zero => intro k j hj; omega
  | succ m ih =>
      intro k j hj htaken hfree
      cases j with
      | zero =>
          simp only [Nat.add_zero] at hfree ⊢
          rw [resolveSlugAux, if_neg hfree]
      | succ j2 =>
          have h0 : slugCandidate base k ∈ existing := by
            have := htaken 0 (by omega)
            simpa using this
          rw [resolveSlugAux, if_pos h0]
          have := ih (k + 1) j2 (by omega)
            (fun i hi => by
              have := htaken (i + 1) (by omega)
              rwa [show k + (i + 1) = k + 1 + i by omega] at this)
            (by rwa [show k + 1 + j2 = k + (j2 + 1) by omega])
          rwa [show k + 1 + j2 = k + (j2 + 1) by omega] at this

/-- C4: slug resolution returns a slug outside the existing set; an unused
candidate is kept verbatim, and when the candidate and its suffixed variants
up to k-1 are all taken while candidate-k is free, exactly candidate-k (the
lowest available suffix) is returned. -/
theorem resolve_slug_spec (existing : List String) (candidate : String) :
    resolve_slug existing candidate ∉ existing ∧
    (candidate ∉ existing → resolve_slug existing candidate = candidate) ∧
    (∀ k, 1 ≤ k → candidate ∈ existing →
      (∀ i, 1 ≤ i → i < k → slugCandidate candidate i ∈ existing) →
      slugCandidate candidate k ∉ existing →
      resolve_slug existing candidate = slugCandidate candidate k) := by
  refine ⟨?_, ?_, ?_⟩
  · by_cases hc : candidate ∈ existing
    · have hex : ∃ j, slugCandidate candidate (1 + j) ∉ existing := by
        rcases exists_free_candidate existing candidate 1 with ⟨j, _, hj⟩
        exact ⟨j, hj⟩
      rcases exists_free_candidate existing candidate 1 with ⟨j0, hj0le, hj0⟩
      have hfind_le : Nat.find hex ≤ existing.length := le_trans (Nat.find_le hj0) hj0le
      have heq : resolve_slug existing candidate = slugCandidate candidate (1 + Nat.find hex) := by
        rw [resolve_slug, if_pos hc]
        exact resolveSlugAux_eq existing candidate (existing.length + 1) 1 (Nat.find hex)
          (by omega)
          (fun i hi => by
            have := Nat.find_min hex hi
            exact not_not.1 this)
          (Nat.find_spec hex)
      rw [heq]
      exact Nat.find_spec hex
    · rw [resolve_slug, if_neg hc]; exact hc
  · intro hc
    rw [resolve_slug, if_neg hc]
  · intro k hk hc htaken hfree
    rw [resolve_slug, if_pos hc]
    have hbound : k - 1 ≤ existing.length := by
      by_contra hgt
      push_neg at hgt
      have hinj : Function.Injective fun i : Nat => slugCandidate candidate (1 + i) := by
        intro a b hab
        have := slugCandidate_inj candidate (1 + a) (1 + b) hab
        omega
      have hsub : (Finset.range (k - 1)).image
          (fun i => slugCandidate candidate (1 + i)) ⊆ existing.toFinset := by
        intro s hs
        rcases Finset.mem_image.1 hs with ⟨i, hi, rfl⟩
        have hilt := Finset.mem_range.1 hi
        exact List.mem_toFinset.2 (htaken (1 + i) (by omega) (by omega))
      have hcard := Finset.card_le_card hsub
      rw [Finset.card_image_of_injective _ hinj, Finset.card_range] at hcard
      have := existing.toFinset_card_le
      omega
    have := resolveSlugAux_eq existing candidate (existing.length + 1) 1 (k - 1)
      (by omega)
      (fun i hi => htaken (1 + i) (by omega) (by omega))
      (by rwa [show 1 + (k - 1) = k by omega])
    rwa [show 1 + (k - 1) = k by omega] at this

/-- Witness for resolve_slug_spec: with slugs pm and pm-1 taken, the
candidate pm resolves to pm-2, and an unused candidate is kept. -/
theorem resolve_slug_spec_witness :
    resolve_slug ["pm", "pm-1"] "pm" ∉ ["pm", "pm-1"] ∧
    resolve_slug ["pm", "pm-1"] "pm" = slugCandidate "pm" 2 ∧
    resolve_slug ["pm", "pm-1"] "other" = "other" := by
  refine ⟨(resolve_slug_spec ["pm", "pm-1"] "pm").1,
    (resolve_slug_spec ["pm", "pm-1"] "pm").2.2 2 (by omega) (by decide) ?_ (by decide),
    (resolve_slug_spec ["pm", "pm-1"] "other").2.1 (by decide)⟩
  intro i h1 h2
  interval_cases i
  decide

/-- findClose finds an adjacent pair exactly when the input splits around
one with no newline strictly before it. -/
theorem findClose_iff (c1 c2 : Char) :
    ∀ l : List Char, TemplateEngine.findClose c1 c2 l = true ↔
      ∃ b d, l = b ++ c1 :: c2 :: d ∧ '\n' ∉ b := by
  intro l
  induction l with
  | nil =>
      constructor
      · intro h; simp [TemplateEngine.findClose] at h
      · rintro ⟨b, d, h, -⟩
        have := congrArg List.length h
        simp at this
        omega
  | cons x rest ih =>
      cases rest with
      | nil =>
          constructor
          · intro h; simp [TemplateEngine.findClose] at h
          · rintro ⟨b, d, h, -⟩
            have := congrArg List.length h
            simp at this
            omega
      | cons y r =>
          constructor
          · intro h
            rw [TemplateEngine.findClose] at h
            by_cases hp : x = c1 ∧ y = c2
            · exact ⟨[], r, by simp [hp.1, hp.2], by simp⟩
            · rw [if_neg hp] at h
              by_cases hn : x = '\n'
              · rw [if_pos hn] at h; exact absurd h (by simp)
              · rw [if_neg hn] at h
                rcases ih.1 h with ⟨b, d, hbd, hb⟩
                refine ⟨x :: b, d, by simp [hbd], ?_⟩
                intro hmem
                rcases List.mem_cons.1 hmem with h1 | h1
                · exact hn h1.symm
                · exact hb h1
          · rintro ⟨b, d, hbd, hb⟩
            rw [TemplateEngine.findClose]
            cases b with
            | nil =>
                simp at hbd
                rw [if_pos ⟨hbd.1, hbd.2.1⟩]
            | cons z b2 =>
                simp at hbd
                by_cases hp : x = c1 ∧ y = c2
                · rw [if_pos hp]
                · rw [if_neg hp]
                  have hxn : ¬x = '\n' := by
                    intro hx
                    exact hb (by rw [← hbd.1, ← hx]; exact List.mem_cons_self _ _)
                  rw [if_neg hxn]
                  exact ih.2 ⟨b2, d, hbd.2, fun hm => hb (List.mem_cons.2 (Or.inr hm))⟩

/-- The detection search succeeds exactly when the input contains one of the
two marker shapes. -/
theorem searchMarker_iff : ∀ l : List Char,
    TemplateEngine.searchMarker l = true ↔
      ((∃ a b d, l = a ++ '\x7b' :: '\x7b' :: (b ++ '\x7d' :: '\x7d' :: d) ∧ '\n' ∉ b) ∨
       (∃ a b d, l = a ++ '\x7b' :: '%' :: (b ++ '%' :: '\x7d' :: d) ∧ '\n' ∉ b)) := by
  intro l
  induction l with
  | nil =>
      constructor
      · intro h; simp [TemplateEngine.searchMarker] at h
      · rintro (⟨a, b, d, h, -⟩ | ⟨a, b, d, h, -⟩) <;>
          · have := congrArg List.length h
            simp at this
            omega
  | cons x rest ih =>
      rw [TemplateEngine.searchMarker]
      constructor
      · intro h
        have h2 : TemplateEngine.headMarker (x :: rest) = true ∨
            TemplateEngine.searchMarker rest = true := by simpa using h
        rcases h2 with hh | hh
        · cases rest with
          | nil => simp [TemplateEngine.headMarker] at hh
          | cons y r =>
              rw [TemplateEngine.headMarker] at hh
              by_cases h1 : x = '\x7b' ∧ y = '\x7b'
              · rw [if_pos h1] at hh
                rcases (findClose_iff '\x7d' '\x7d' r).1 hh with ⟨b, d, hbd, hb⟩
                exact Or.inl ⟨[], b, d, by simp [h1.1, h1.2, hbd], hb⟩
              · rw [if_neg h1] at hh
                by_cases h2 : x = '\x7b' ∧ y = '%'
                · rw [if_pos h2] at hh
                  rcases (findClose_iff '%' '\x7d' r).1 hh with ⟨b, d, hbd, hb⟩
                  exact Or.inr ⟨[], b, d, by simp [h2.1, h2.2, hbd], hb⟩
                · rw [if_neg h2] at hh
                  exact absurd hh (by simp)
        · rcases ih.1 hh with ⟨a, b, d, hbd, hb⟩ | ⟨a, b, d, hbd, hb⟩
          · exact Or.inl ⟨x :: a, b, d, by simp [hbd], hb⟩
          · exact Or.inr ⟨x :: a, b, d, by simp [hbd], hb⟩
      · intro h
        rw [Bool.or_eq_true]
        rcases h with ⟨a, b, d, hbd, hb⟩ | ⟨a, b, d, hbd, hb⟩
        · cases a with
          | nil =>
              left
              simp at hbd
              rw [hbd.1, hbd.2, TemplateEngine.headMarker, if_pos ⟨rfl, rfl⟩]
              exact (findClose_iff '\x7d' '\x7d' _).2 ⟨b, d, rfl, hb⟩
          | cons z a2 =>
              right
              simp at hbd
              exact ih.2 (Or.inl ⟨a2, b, d, hbd.2, hb⟩)
        · cases a with
          | nil =>
              left
              simp at hbd
              rw [hbd.1, hbd.2, TemplateEngine.headMarker]
              rw [if_neg (by simp), if_pos ⟨rfl, rfl⟩]
              exact (findClose_iff '%' '\x7d' _).2 ⟨b, d, rfl, hb⟩
          | cons z a2 =>
              right
              simp at hbd
              exact ih.2 (Or.inr ⟨a2, b, d, hbd.2, hb⟩)

/-- C7: is_template is true exactly when the content contains at least one
complete variable-interpolation marker or control-block marker (the regex
dot keeps the interior on one line, hence the newline-free condition);
unmatched or mismatched single braces never qualify.  The two spec examples
are included. -/
theorem is_template_spec :
    (∀ content : String,
      TemplateEngine.is_template content = true ↔
        ((∃ a b d, content.data = a ++ '\x7b' :: '\x7b' :: (b ++ '\x7d' :: '\x7d' :: d) ∧ '\n' ∉ b) ∨
         (∃ a b d, content.data = a ++ '\x7b' :: '%' :: (b ++ '%' :: '\x7d' :: d) ∧ '\n' ∉ b))) ∧
    TemplateEngine.is_template "\x7b not a template \x7d" = false ∧
    TemplateEngine.is_template "\x7b\x7bx\x7d\x7d" = true :=
  ⟨fun content => searchMarker_iff content.data, by decide, by decide⟩

/-- Witness for is_template_spec: the characterization applied at a concrete
marker decomposition of the second spec example. -/
theorem is_template_spec_witness :
    TemplateEngine.is_template "\x7b\x7bx\x7d\x7d" = true :=
  (is_template_spec.1 "\x7b\x7bx\x7d\x7d").2 (Or.inl ⟨[], ['x'], [], by decide, by decide⟩)

/-- strLeB agrees with the strict lexicographic order: a comparison that
holds rules out the reverse strict order. -/
theorem strLeB_not_lex : ∀ as bs, strLeB as bs = true → ¬ List.Lex (· < ·) bs as := by
  intro as
  induction as with
  | nil => intro bs _ hlex; cases hlex
  | cons a as2 ih =>
      intro bs h hlex
      cases bs with
      | nil => simp [strLeB] at h
      | cons b bs2 =>
          rw [strLeB] at h
          cases hlex with
          | rel hba =>
              rw [if_neg (asymm hba), if_neg (ne_of_gt hba)] at h
              exact absurd h (by simp)
          | cons hlex2 =>
              rw [if_neg (lt_irrefl _), if_pos rfl] at h
              exact ih bs2 h hlex2

/-- The executable comparison implies the standard string order, so a list
sorted by strLe is sorted alphabetically. -/
theorem strLe_le (s t : String) (h : strLe s t = true) : s ≤ t := by
  rw [String.le_iff_toList_le]
  show s.data ≤ t.data
  exact le_of_not_lt (fun hlt => strLeB_not_lex _ _ h hlt)

/-- strLeB is total. -/
theorem strLeB_total : ∀ as bs, strLeB as bs = true ∨ strLeB bs as = true := by
  intro as
  induction as with
  | nil => intro bs; left; rfl
  | cons a as2 ih =>
      intro bs
      cases bs with
      | nil => right; rfl
      | cons b bs2 =>
          rcases lt_trichotomy a b with h | h | h
          · left; rw [strLeB, if_pos h]
          · subst h
            rcases ih bs2 with h2 | h2
            · left; rw [strLeB, if_neg (lt_irrefl _), if_pos rfl]; exact h2
            · right; rw [strLeB, if_neg (lt_irrefl _), if_pos rfl]; exact h2
          · right; rw [strLeB, if_pos h]

/-- strLeB is transitive. -/
theorem strLeB_trans : ∀ as bs cs, strLeB as bs = true → strLeB bs cs = true →
    strLeB as cs = true := by
  intro as
  induction as with
  | nil => intro bs cs _ _; rfl
  | cons a as2 ih =>
      intro bs cs h1 h2
      cases bs with
      | nil => simp [strLeB] at h1
      | cons b bs2 =>
          cases cs with
          | nil => simp [strLeB] at h2
          | cons c cs2 =>
              rw [strLeB] at h1 h2 ⊢
              rcases lt_trichotomy a b with hab | hab | hab
              · rcases lt_trichotomy b c with hbc | hbc | hbc
                · rw [if_pos (lt_trans hab hbc)]
                · subst hbc; rw [if_pos hab]
                · rw [if_neg (asymm hbc), if_neg (ne_of_gt hbc)] at h2
                  exact absurd h2 (by simp)
              · subst hab
                rcases lt_trichotomy a c with hac | hac | hac
                · rw [if_pos hac]
                · subst hac
                  rw [if_neg (lt_irrefl _), if_pos rfl] at h1 h2 ⊢
                  exact ih _ _ h1 h2
                · rw [if_neg (asymm hac), if_neg (ne_of_gt hac)] at h2
                  exact absurd h2 (by simp)
              · rw [if_neg (asymm hab), if_neg (ne_of_gt hab)] at h1
                exact absurd h1 (by simp)

/-- C5 counterexample: on the spec's own example the code returns
["item", "items"] - the interpolation pattern also captures the loop
variable, which occurs as a plain interpolation in the body - not
["items"] as the claim states. -/
theorem extract_variables_example_ne :
    TemplateEngine.extract_variables
      "\x7b% for item in items %\x7d\x7b\x7b item \x7d\x7d\x7b% endfor %\x7d" ≠ ["items"] := by
  intro h
  have heval : TemplateEngine.extract_variables
      "\x7b% for item in items %\x7d\x7b\x7b item \x7d\x7d\x7b% endfor %\x7d" =
      ["item", "items"] := rfl
  rw [heval] at h
  exact absurd h (by decide)

/-- C5 (amended): extract_variables returns the alphabetically sorted,
duplicate-free union of the captures of the three documented shapes minus
the fixed exclusion set; but on the spec's for-loop example the result is
["item", "items"], because the loop variable also occurs as an
interpolation and is captured by that shape (only the for-shape itself
skips the loop variable). -/
theorem extract_variables_spec :
    (∀ c v, v ∈ TemplateEngine.extract_variables c ↔
      ((v ∈ TemplateEngine.findAll TemplateEngine.matchVar c ∨
        v ∈ TemplateEngine.findAll TemplateEngine.matchFor c ∨
        v ∈ TemplateEngine.findAll TemplateEngine.matchIf c) ∧
       v ∉ TemplateEngine.builtins)) ∧
    (∀ c, (TemplateEngine.extract_variables c).Sorted (fun a b : String => a ≤ b) ∧
      (TemplateEngine.extract_variables c).Nodup) ∧
    TemplateEngine.extract_variables
      "\x7b% for item in items %\x7d\x7b\x7b item \x7d\x7d\x7b% endfor %\x7d" =
      ["item", "items"] := by
  refine ⟨?_, ?_, rfl⟩
  · intro c v
    unfold TemplateEngine.extract_variables
    constructor
    · intro hv
      have hv2 := (List.perm_insertionSort _ _).mem_iff.1 hv
      rw [List.mem_filter] at hv2
      refine ⟨?_, by simpa using hv2.2⟩
      simpa using List.mem_dedup.1 hv2.1
    · rintro ⟨h1, h2⟩
      apply (List.perm_insertionSort _ _).mem_iff.2
      rw [List.mem_filter]
      exact ⟨List.mem_dedup.2 (by simpa using h1), by simpa using h2⟩
  · intro c
    constructor
    · apply List.Pairwise.imp (fun hab => strLe_le _ _ hab)
      exact @List.sorted_insertionSort String (fun a b => strLe a b = true) _
        ⟨fun a b => strLeB_total a.data b.data⟩
        ⟨fun a b c2 hab hbc => strLeB_trans _ _ _ hab hbc⟩ _
    · exact (List.perm_insertionSort _ _).nodup_iff.2
        (((TemplateEngine.findAll TemplateEngine.matchVar c ++
           TemplateEngine.findAll TemplateEngine.matchFor c ++
           TemplateEngine.findAll TemplateEngine.matchIf c).nodup_dedup).filter _)

/-- Dropping the head preserves the absence of a marker opener. -/
theorem hasOpener_tail (x : Char) (rest : List Char)
    (h : TemplateEngine.hasOpener (x :: rest) = false) :
    TemplateEngine.hasOpener rest = false := by
  cases rest with
  | nil => rfl
  | cons y r =>
      rw [TemplateEngine.hasOpener] at h
      simp at h
      simp [h.2]

/-- A list without any marker opener lexes to pure literal text. -/
theorem lexPiecesF_no_opener : ∀ fuel l, l.length ≤ fuel →
    TemplateEngine.hasOpener l = false →
    TemplateEngine.lexPiecesF fuel l = Except.ok (l.map Piece.text) := by
  intro fuel
  induction fuel with
  | zero =>
      intro l hl _
      cases l with
      | nil => rfl
      | cons x rest => simp at hl
  | succ m ih =>
      intro l hl hop
      cases l with
      | nil => rfl
      | cons x rest =>
          rw [TemplateEngine.lexPiecesF.eq_def]
          split
          · rename_i heq
            exact absurd heq (by simp)
          · rename_i hfuel hlist
            omega
          · rename_i hfuel hlist
            rw [hlist] at hop
            rw [TemplateEngine.hasOpener] at hop
            simp at hop
          · rename_i hfuel hlist
            rw [hlist] at hop
            rw [TemplateEngine.hasOpener] at hop
            simp at hop
          · rename_i hfuel hlist
            rw [hlist] at hop
            rw [TemplateEngine.hasOpener] at hop
            simp at hop
          · rename_i hfuel hlist
            injection hlist with h1 h2
            subst h1
            subst h2
            injection hfuel with h3
            subst h3
            rw [ih rest (by simp at hl; omega) (hasOpener_tail x rest hop)]
            rfl

/-- Rendering literal pieces rebuilds the original text, for any variables
mapping. -/
theorem renderPieces_text (vars : List (String × String)) : ∀ l : List Char,
    TemplateEngine.renderPieces vars (l.map Piece.text) = Except.ok (String.mk l) := by
  intro l
  induction l with
  | nil => rfl
  | cons c rest ih =>
      rw [List.map_cons, TemplateEngine.renderPieces, ih]
      rfl

/-- C8 counterexample: an unbalanced opener contains no complete marker, so
is_template does not detect it, yet rendering it is a syntax failure and
not the identity. -/
theorem render_no_marker_counterexample :
    TemplateEngine.is_template "\x7b\x7b" = false ∧
    TemplateEngine.render "\x7b\x7b" [] ≠ Except.ok "\x7b\x7b" := by
  refine ⟨rfl, ?_⟩
  intro h
  have heval : TemplateEngine.render "\x7b\x7b" [] =
      Except.error (TemplateRenderError.syntaxError "malformed interpolation") := rfl
  rw [heval] at h
  exact Except.noConfusion h

/-- C8 (amended): rendering is the identity, for every variables mapping,
on content free of any marker opener (no variable, block or comment
opener).  The claim's weaker hypothesis - only that is_template finds no
complete marker - is not enough: an unbalanced opener is a syntax failure
and a comment is stripped, as render_no_marker_counterexample shows. -/
theorem render_identity_no_opener (content : String) (vars : List (String × String))
    (h : TemplateEngine.hasOpener content.data = false) :
    TemplateEngine.render content vars = Except.ok content := by
  unfold TemplateEngine.render TemplateEngine.lexPieces
  rw [lexPiecesF_no_opener content.data.length content.data (le_refl _) h]
  show TemplateEngine.renderPieces vars (content.data.map Piece.text) = Except.ok content
  rw [renderPieces_text]

/-- Witness for render_identity_no_opener: plain text passes through
unchanged even under a nonempty mapping. -/
theorem render_identity_no_opener_witness :
    TemplateEngine.render "Hello world!" [("name", "x")] = Except.ok "Hello world!" :=
  render_identity_no_opener "Hello world!" [("name", "x")] rfl

/-- When every referenced name is bound, evaluation of the pieces
succeeds. -/
theorem renderPieces_ok (vars : List (String × String)) : ∀ ps : List Piece,
    (∀ n ∈ TemplateEngine.referencedNames ps, TemplateEngine.lookupVar vars n ≠ none) →
    ∃ s, TemplateEngine.renderPieces vars ps = Except.ok s := by
  intro ps
  induction ps with
  | nil => intro _; exact ⟨"", rfl⟩
  | cons p ps2 ih =>
      intro hall
      cases p with
      | text c =>
          rcases ih (fun n hn => hall n (by simpa [TemplateEngine.referencedNames] using hn))
            with ⟨s, hs⟩
          exact ⟨String.mk (c :: s.data), by rw [TemplateEngine.renderPieces, hs]; rfl⟩
      | var n =>
          have hn := hall n (by simp [TemplateEngine.referencedNames])
          rcases hv : TemplateEngine.lookupVar vars n with _ | v
          · exact absurd hv hn
          · rcases ih (fun n2 hn2 => hall n2
                (by simpa [TemplateEngine.referencedNames] using Or.inr hn2)) with ⟨s, hs⟩
            exact ⟨v ++ s, by rw [TemplateEngine.renderPieces, hv, hs]; rfl⟩

/-- When some referenced name is unbound, evaluation fails with a
missingVariable error naming a referenced unbound name (the leftmost
one). -/
theorem renderPieces_missing (vars : List (String × String)) : ∀ ps : List Piece,
    (∃ n, n ∈ TemplateEngine.referencedNames ps ∧ TemplateEngine.lookupVar vars n = none) →
    ∃ n, n ∈ TemplateEngine.referencedNames ps ∧ TemplateEngine.lookupVar vars n = none ∧
      TemplateEngine.renderPieces vars ps =
        Except.error (TemplateRenderError.missingVariable n) := by
  intro ps
  induction ps with
  | nil => rintro ⟨n, hn, -⟩; simp [TemplateEngine.referencedNames] at hn
  | cons p ps2 ih =>
      rintro ⟨n, hn, hnone⟩
      cases p with
      | text c =>
          rcases ih ⟨n, by simpa [TemplateEngine.referencedNames] using hn, hnone⟩
            with ⟨n2, hmem, hno, herr⟩
          refine ⟨n2, by simpa [TemplateEngine.referencedNames] using hmem, hno, ?_⟩
          rw [TemplateEngine.renderPieces, herr]
          rfl
      | var m =>
          rcases hv : TemplateEngine.lookupVar vars m with _ | v
          · refine ⟨m, by simp [TemplateEngine.referencedNames], hv, ?_⟩
            rw [TemplateEngine.renderPieces, hv]
          · have hn2 : n ∈ TemplateEngine.referencedNames ps2 := by
              rcases (by simpa [TemplateEngine.referencedNames] using hn : n = m ∨
                  n ∈ TemplateEngine.referencedNames ps2) with h | h
              · subst h; rw [hv] at hnone; exact absurd hnone (by simp)
              · exact h
            rcases ih ⟨n, hn2, hnone⟩ with ⟨n2, hmem, hno, herr⟩
            refine ⟨n2, by simpa [TemplateEngine.referencedNames] using Or.inr hmem, hno, ?_⟩
            rw [TemplateEngine.renderPieces, hv, herr]
            rfl

/-- C6: strict-undefined rendering over the modelled fragment - for content
the lexer accepts, rendering fails with a template error identifying a
missing (referenced, unbound) name whenever the content references any name
absent from the mapping, and succeeds otherwise; never a silent blank.  The
two spec examples are included. -/
theorem render_strict_undefined :
    (∀ (content : String) (vars : List (String × String)) (ps : List Piece),
      TemplateEngine.lexPieces content.data = Except.ok ps →
      ((∃ n, n ∈ TemplateEngine.referencedNames ps ∧
          TemplateEngine.lookupVar vars n = none) →
        ∃ n, n ∈ TemplateEngine.referencedNames ps ∧
          TemplateEngine.lookupVar vars n = none ∧
          TemplateEngine.render content vars =
            Except.error (TemplateRenderError.missingVariable n)) ∧
      ((∀ n ∈ TemplateEngine.referencedNames ps,
          TemplateEngine.lookupVar vars n ≠ none) →
        ∃ s, TemplateEngine.render content vars = Except.ok s)) ∧
    TemplateEngine.render "Hello \x7b\x7b name \x7d\x7d!" [] =
      Except.error (TemplateRenderError.missingVariable "name") ∧
    TemplateEngine.render "Hello \x7b\x7b name \x7d\x7d!" [("name", "World")] =
      Except.ok "Hello World!" := by
  refine ⟨?_, rfl, rfl⟩
  intro content vars ps hlex
  have hrender : TemplateEngine.render content vars = TemplateEngine.renderPieces vars ps := by
    unfold TemplateEngine.render TemplateEngine.lexPieces at *
    rw [hlex]
    rfl
  constructor
  · intro hex
    rcases renderPieces_missing vars ps hex with ⟨n, hmem, hno, herr⟩
    exact ⟨n, hmem, hno, by rw [hrender, herr]⟩
  · intro hall
    rcases renderPieces_ok vars ps hall with ⟨s, hs⟩
    exact ⟨s, by rw [hrender, hs]⟩

/-- Witness for render_strict_undefined: the first spec example, with the
lexed pieces given explicitly; the missing name identified is name
itself. -/
theorem render_strict_undefined_witness :
    ∃ n, n ∈ TemplateEngine.referencedNames
        [Piece.text 'H', Piece.text 'e', Piece.text 'l', Piece.text 'l', Piece.text 'o',
         Piece.text ' ', Piece.var "name", Piece.text '!'] ∧
      TemplateEngine.lookupVar [] n = none ∧
      TemplateEngine.render "Hello \x7b\x7b name \x7d\x7d!" [] =
        Except.error (TemplateRenderError.missingVariable n) :=
  (render_strict_undefined.1 "Hello \x7b\x7b name \x7d\x7d!" []
      [Piece.text 'H', Piece.text 'e', Piece.text 'l', Piece.text 'l', Piece.text 'o',
       Piece.text ' ', Piece.var "name", Piece.text '!'] rfl).1
    ⟨"name", by simp [TemplateEngine.referencedNames], rfl⟩

/-- C9 counterexample: in the create flow an explicitly supplied false
is_template is not preserved.  The service tests the value (if not
data.is_template), which cannot distinguish an explicit false from the
schema default, so the payload of a caller who explicitly sent
is_template=false for template content comes out with is_template=true. -/
theorem prepareCreate_overwrites_explicit_false :
    (PromptService.prepareCreate
      { title := "t", content := "\x7b\x7bx\x7d\x7d", is_template := false }).is_template
      = true := rfl

/-- C9 (amended): in the update flow auto-detection runs only when
is_template is null and auto-extraction only when template_vars is null -
explicit values, including an explicit false, are preserved - and only when
content is supplied.  In the create flow the service tests values rather
than presence: detection overwrites any false flag and extraction fills any
empty descriptor mapping, so an explicit false (or explicit empty mapping)
is overwritten there.  Extracted names are always recorded with descriptor
type string, required true. -/
theorem template_autodetect_spec :
    (∀ d : PromptUpdate, d.content = none → PromptService.prepareUpdate d = d) ∧
    (∀ (d : PromptUpdate) (c : String) (b : Bool), d.content = some c →
      d.is_template = some b → (PromptService.prepareUpdate d).is_template = some b) ∧
    (∀ (d : PromptUpdate) (c : String), d.content = some c → d.is_template = none →
      (PromptService.prepareUpdate d).is_template =
        some (TemplateEngine.is_template c)) ∧
    (∀ (d : PromptUpdate) (c : String) (vs : List (String × VarDescriptor)),
      d.content = some c → d.template_vars = some vs →
      (PromptService.prepareUpdate d).template_vars = some vs) ∧
    (∀ (d : PromptUpdate) (c : String), d.content = some c → d.template_vars = none →
      d.is_template = some true →
      (PromptService.prepareUpdate d).template_vars =
        some ((TemplateEngine.extract_variables c).map
          (fun v => (v, { varType := "string", required := true })))) ∧
    (∀ (d : PromptUpdate) (c : String), d.content = some c → d.template_vars = none →
      d.is_template = none → TemplateEngine.is_template c = true →
      (PromptService.prepareUpdate d).template_vars =
        some ((TemplateEngine.extract_variables c).map
          (fun v => (v, { varType := "string", required := true })))) ∧
    (∀ data : PromptCreate, data.is_template = true →
      (PromptService.prepareCreate data).is_template = true) ∧
    (∀ data : PromptCreate, data.is_template = false →
      (PromptService.prepareCreate data).is_template =
        TemplateEngine.is_template data.content) ∧
    (∀ data : PromptCreate, (PromptService.prepareCreate data).is_template = true →
      data.template_vars = [] →
      (PromptService.prepareCreate data).template_vars =
        (TemplateEngine.extract_variables data.content).map
          (fun v => (v, { varType := "string", required := true }))) ∧
    (∀ data : PromptCreate, data.template_vars ≠ [] →
      (PromptService.prepareCreate data).template_vars = data.template_vars) := by
  refine ⟨?_, ?_, ?_, ?_, ?_, ?_, ?_, ?_, ?_, ?_⟩
  · intro d hc
    simp [PromptService.prepareUpdate, hc]
  · intro d c b hc hb
    cases b <;>
      rcases htv : d.template_vars with _ | vs <;>
        simp [PromptService.prepareUpdate, hc, hb, htv]
  · intro d c hc hb
    rcases hdet : TemplateEngine.is_template c with _ | _ <;>
      rcases htv : d.template_vars with _ | vs <;>
        simp [PromptService.prepareUpdate, hc, hb, htv, hdet]
  · intro d c vs hc htv
    rcases hb : d.is_template with _ | b
    · rcases hdet : TemplateEngine.is_template c with _ | _ <;>
        simp [PromptService.prepareUpdate, hc, hb, htv, hdet]
    · cases b <;> simp [PromptService.prepareUpdate, hc, hb, htv]
  · intro d c hc htv hb
    simp [PromptService.prepareUpdate, hc, hb, htv]
  · intro d c hc htv hb hdet
    simp [PromptService.prepareUpdate, hc, hb, htv, hdet]
  · intro data hb
    rcases htv : data.template_vars with _ | _ <;>
      simp [PromptService.prepareCreate, hb, htv]
  · intro data hb
    rcases hdet : TemplateEngine.is_template data.content with _ | _ <;>
      rcases htv : data.template_vars with _ | _ <;>
        simp [PromptService.prepareCreate, hb, htv, hdet]
  · intro data hres htv
    rcases hb : data.is_template with _ | _
    · rcases hdet : TemplateEngine.is_template data.content with _ | _
      · rw [PromptService.prepareCreate] at hres
        simp [hb, hdet] at hres
      · simp [PromptService.prepareCreate, hb, htv, hdet]
    · simp [PromptService.prepareCreate, hb, htv]
  · intro data htv
    rcases hb : data.is_template with _ | _ <;>
      rcases hdet : TemplateEngine.is_template data.content with _ | _ <;>
        simp [PromptService.prepareCreate, hb, htv, hdet]

/-- Witness for template_autodetect_spec: an explicit false survives the
update flow, and the create flow fills the descriptor of the detected
variable x. -/
theorem template_autodetect_spec_witness :
    (PromptService.prepareUpdate
      { content := some "\x7b\x7bx\x7d\x7d", is_template := some false }).is_template =
      some false ∧
    (PromptService.prepareCreate
      { title := "t", content := "\x7b\x7bx\x7d\x7d" }).template_vars =
      [("x", { varType := "string", required := true })] :=
  ⟨template_autodetect_spec.2.1
      { content := some "\x7b\x7bx\x7d\x7d", is_template := some false }
      "\x7b\x7bx\x7d\x7d" false rfl rfl,
   (template_autodetect_spec.2.2.2.2.2.2.2.2.1
      { title := "t", content := "\x7b\x7bx\x7d\x7d" } rfl rfl).trans (by rfl)⟩

/-- A found row is replaced in place by setPrompt: looking the slug up again
returns the replacement. -/
theorem get_by_slug_setPrompt (store : List Prompt) (p q : Prompt) (slug : String)
    (hq : PromptRepository.get_by_slug store slug = some q) (hp : p.slug = q.slug) :
    PromptRepository.get_by_slug (PromptRepository.setPrompt store p) slug = some p := by
  have hqslug : q.slug = slug := by
    have := List.find?_some hq
    simpa using this
  induction store with
  | nil => simp [PromptRepository.get_by_slug] at hq
  | cons r rs ih =>
      by_cases hr : r.slug = slug
      · have hqr : q = r := by
          rw [PromptRepository.get_by_slug,
            List.find?_cons_of_pos _ (by simpa using hr)] at hq
          simpa using hq.symm
        rw [PromptRepository.setPrompt, List.map_cons,
          if_pos (by simp [hp, hqr, hr] : (r.slug == p.slug) = true)]
        rw [PromptRepository.get_by_slug,
          List.find?_cons_of_pos _ (by simp [hp, hqr, hr])]
      · rw [PromptRepository.get_by_slug,
          List.find?_cons_of_neg _ (by simpa using hr)] at hq
        rw [PromptRepository.setPrompt, List.map_cons,
          if_neg (by simp [hp, hqslug, hr] : ¬(r.slug == p.slug) = true)]
        rw [PromptRepository.get_by_slug,
          List.find?_cons_of_neg _ (by simp [hp, hqslug, hr])]
        exact ih hq

/-- C10: render_prompt commits the usage bump before rendering is
attempted - after the call the stored row has usage_count + 1 and
last_used_at set to the call instant, and the returned second component is
exactly the render outcome of the fetched content, so the usage statistics
are updated even when rendering fails (the operation is not atomic with
respect to usage state). -/
theorem render_prompt_bumps_usage_first (store : List Prompt) (slug : String)
    (vars : List (String × String)) (now : Nat) (p : Prompt)
    (hp : PromptRepository.get_by_slug store slug = some p) :
    PromptRepository.get_by_slug (PromptService.render_prompt store slug vars now).1 slug =
      some (PromptRepository.bumpUsage p now) ∧
    (PromptRepository.bumpUsage p now).usage_count = p.usage_count + 1 ∧
    (PromptRepository.bumpUsage p now).last_used_at = some now ∧
    (PromptService.render_prompt store slug vars now).2 =
      some (TemplateEngine.render p.content vars) := by
  have hinc : PromptRepository.increment_usage store slug now =
      (PromptRepository.setPrompt store (PromptRepository.bumpUsage p now),
       some (PromptRepository.bumpUsage p now)) := by
    rw [PromptRepository.increment_usage, hp]
  refine ⟨?_, rfl, rfl, ?_⟩
  · rw [PromptService.render_prompt, hinc]
    exact get_by_slug_setPrompt store (PromptRepository.bumpUsage p now) p slug hp rfl
  · rw [PromptService.render_prompt, hinc]
    rfl

/-- Witness for render_prompt_bumps_usage_first: rendering the stored
template prompt with an empty mapping fails with a missing-variable error,
yet the stored row afterwards carries usage_count 1 and the call
timestamp. -/
theorem render_prompt_bumps_usage_first_witness :
    PromptRepository.get_by_slug
        (PromptService.render_prompt [samplePromptT] "tpl" [] 5).1 "tpl" =
      some (PromptRepository.bumpUsage samplePromptT 5) ∧
    (PromptRepository.bumpUsage samplePromptT 5).usage_count = 1 ∧
    (PromptRepository.bumpUsage samplePromptT 5).last_used_at = some 5 ∧
    (PromptService.render_prompt [samplePromptT] "tpl" [] 5).2 =
      some (Except.error (TemplateRenderError.missingVariable "x")) := by
  have h := render_prompt_bumps_usage_first [samplePromptT] "tpl" [] 5 samplePromptT rfl
  refine ⟨h.1, rfl, rfl, ?_⟩
  rw [h.2.2.2]
  rfl
